import Mathlib

/-
A shallow embedding of the digitalrebar provision API client
(src/api/client.go) in Lean 4, together with theorems checking the
natural-language specification against it.

Conventions of the embedding:
- Go methods that mutate the receiver and return it are modelled as pure
  functions threading the receiver value; each fluent chain owns its
  builder, so this is observationally equivalent.
- http.Header is a map from canonical keys to lists of values, observed
  only through Get (first value) and the per-key value list.  We represent
  it as the flat list of (key, value) pairs in insertion order; all keys
  used by the client are already in canonical MIME form.
- Machine integers do not overflow in any code path modelled here, so
  Nat / Int are used directly.
- Network interaction (http.Client.Do) is an explicit input: either a
  transport failure carrying an error message, or a response with status
  code, content type, content length and oracles for the outcomes of the
  JSON decoding steps, which consume external body bytes.
-/

set_option autoImplicit false

namespace Provision

/-! ## String helpers mirroring the Go standard library -/

/-- UTF-8 encoding of one character, as the list of its byte values. -/
def utf8Bytes (c : Char) : List Nat :=
  let n := c.toNat
  if n < 0x80 then [n]
  else if n < 0x800 then [0xC0 + n / 64, 0x80 + n % 64]
  else if n < 0x10000 then [0xE0 + n / 4096, 0x80 + (n / 64) % 64, 0x80 + n % 64]
  else [0xF0 + n / 262144, 0x80 + (n / 4096) % 64, 0x80 + (n / 64) % 64, 0x80 + n % 64]

/-- The UTF-8 bytes of a string. -/
def strBytes (s : String) : List Nat :=
  (s.toList.map utf8Bytes).flatten

/-- Uppercase hexadecimal digit for a value below 16. -/
def hexDigit (n : Nat) : Char :=
  if n < 10 then Char.ofNat (48 + n) else Char.ofNat (55 + n)

/-- Percent-escape of one byte, as in Go net/url. -/
def escapeByte (b : Nat) : String :=
  "%" ++ String.singleton (hexDigit (b / 16)) ++ String.singleton (hexDigit (b % 16))

/-- Bytes left unescaped by Go net/url query encoding:
alphanumerics and the marks minus, underscore, dot, tilde. -/
def isUnreservedByte (b : Nat) : Bool :=
  (48 ≤ b && b ≤ 57) || (65 ≤ b && b ≤ 90) || (97 ≤ b && b ≤ 122) ||
  b == 45 || b == 95 || b == 46 || b == 126

/-- Go url.QueryEscape: space becomes plus, unreserved bytes stay, the
rest are percent-encoded. -/
def queryEscape (s : String) : String :=
  String.join ((strBytes s).map fun b =>
    if isUnreservedByte b then String.singleton (Char.ofNat b)
    else if b == 32 then "+"
    else escapeByte b)

/-- Byte-lexicographic order on strings (what Go sort.Strings uses;
UTF-8 byte order agrees with code-point order). -/
def leChars : List Char → List Char → Bool
  | [], _ => true
  | _ :: _, [] => false
  | a :: as, b :: bs =>
    if a.toNat < b.toNat then true
    else if b.toNat < a.toNat then false
    else leChars as bs

def strLeB (a b : String) : Bool :=
  leChars a.toList b.toList

def insertSorted (k : String) : List String → List String
  | [] => [k]
  | x :: xs => if strLeB k x then k :: x :: xs else x :: insertSorted k xs

def sortStrings : List String → List String
  | [] => []
  | x :: xs => insertSorted x (sortStrings xs)

/-- Go strings.isSeparator restricted to the inputs the client sees:
ASCII alphanumerics and underscore are not separators, any other ASCII
character is; non-ASCII characters used here are never separators. -/
def isSeparatorChar (c : Char) : Bool :=
  let n := c.toNat
  if n ≤ 127 then
    !((48 ≤ n && n ≤ 57) || (97 ≤ n && n ≤ 122) || (65 ≤ n && n ≤ 90) || n == 95)
  else false

/-- ASCII uppercase of one character (what Go unicode.ToTitle does on
the ASCII inputs seen here). -/
def upperChar (c : Char) : Char :=
  if 97 ≤ c.toNat && c.toNat ≤ 122 then Char.ofNat (c.toNat - 32) else c

/-- ASCII lowercase of one character (what Go strings.ToLower does on
the ASCII inputs seen here). -/
def lowerChar (c : Char) : Char :=
  if 65 ≤ c.toNat && c.toNat ≤ 90 then Char.ofNat (c.toNat + 32) else c

/-- Go strings.ToLower for the ASCII inputs seen here. -/
def asciiLower (s : String) : String :=
  String.mk (s.toList.map lowerChar)

def titleMap : Bool → List Char → List Char
  | _, [] => []
  | prevSep, c :: cs =>
    (if prevSep then upperChar c else c) :: titleMap (isSeparatorChar c) cs

/-- Go strings.Title: uppercase every character that follows a word
separator (the start of the string counts as one). -/
def titleCase (s : String) : String :=
  String.mk (titleMap true s.toList)

/-- The operator normalization performed by R.Filter:
strings.Title(strings.ToLower(op)). -/
def normOp (s : String) : String :=
  titleCase (asciiLower s)

/-- Substring test on character lists. -/
def containsChars (nee : List Char) : List Char → Bool
  | [] => nee.isEmpty
  | x :: xs => nee.isPrefixOf (x :: xs) || containsChars nee xs

/-- Whether nee occurs as a contiguous substring of hay. -/
def strContains (hay nee : String) : Bool :=
  containsChars nee.toList hay.toList

/-! ## url.Values and query encoding -/

/-- url.Values.Add: append the value to the list held under the key,
creating the key if absent. -/
def valuesAdd (vs : List (String × List String)) (k v : String) :
    List (String × List String) :=
  if vs.any (fun p => p.1 == k) then
    vs.map (fun p => if p.1 == k then (p.1, p.2 ++ [v]) else p)
  else vs ++ [(k, [v])]

/-- The url.Values built by R.Params from a flat key/value list
(for i := 1; i < len(args); i += 2 { values.Add(args[i-1], args[i]) }). -/
def valuesOfPairs : List String → List (String × List String) →
    List (String × List String)
  | k :: v :: rest, acc => valuesOfPairs rest (valuesAdd acc k v)
  | _, acc => acc

/-- url.Values.Encode: keys in sorted order, each value percent-escaped,
joined with ampersands. -/
def valuesEncode (vs : List (String × List String)) : String :=
  let ks := sortStrings (vs.map (fun p => p.1))
  String.intercalate "&" (List.flatten (ks.map fun k =>
    match vs.find? (fun p => p.1 == k) with
    | some (_, vals) => vals.map (fun v => queryEscape k ++ "=" ++ queryEscape v)
    | none => []))

/-! ## The error accumulator (models.Error) -/

/-- Modelled from the spec: the structured error value of the models
package (not under src/) — a kind tag, resource type and key context,
HTTP status code (0 if no response was received), and a growing list of
message strings, viewed as an error exactly when the message list is
non-empty; merging with an arbitrary error appends that error's message. -/
structure MError where
  etype : String := ""
  model : String := ""
  key : String := ""
  code : Nat := 0
  messages : List String := []
  deriving Repr, DecidableEq

/-- models.Error.ContainsError: true when messages have accumulated. -/
def MError.containsError (e : MError) : Bool :=
  !e.messages.isEmpty

/-- models.Error.Errorf: append one formatted message. -/
def MError.errorf (e : MError) (msg : String) : MError :=
  { e with messages := e.messages ++ [msg] }

/-- models.Error.AddError with a non-nil error: append its message. -/
def MError.addError (e : MError) (msg : String) : MError :=
  { e with messages := e.messages ++ [msg] }

/-- models.Error.HasError: the accumulator itself when it holds any
message, otherwise the nil error. -/
def MError.hasError (e : MError) : Option MError :=
  if e.containsError then some e else none

/-! ## HTTP headers -/

/-- http.Header observed through Get and per-key value lists, kept as
the flat insertion-ordered list of pairs (keys already canonical). -/
abbrev Header := List (String × String)

/-- http.Header.Get: the first value stored under the key, or "". -/
def Header.get (h : Header) (k : String) : String :=
  match h.find? (fun p => p.1 == k) with
  | some p => p.2
  | none => ""

/-- http.Header.Add: append one value under the key. -/
def Header.add (h : Header) (k v : String) : Header :=
  h ++ [(k, v)]

/-- http.Header.Set: replace every value under the key with one value. -/
def Header.set (h : Header) (k v : String) : Header :=
  h.filter (fun p => !(p.1 == k)) ++ [(k, v)]

/-- The ordered list of values the header holds under one key. -/
def Header.valuesOf (h : Header) (k : String) : List String :=
  (h.filter (fun p => p.1 == k)).map (fun p => p.2)

/-! ## Models (external collaborator contract) -/

/-- Modelled from the spec: a resource type exposes a stable type
identifier, a unique key, and field-level content; the models package is
not under src/.  The pfix field stands for the Prefix() identifier and
mkey for Key(). -/
structure MModel where
  pfix : String
  mkey : String
  fields : List (String × String) := []
  deriving Repr, DecidableEq

/-- An RFC6902-style patch operation. -/
inductive PatchOp where
  | add (path value : String)
  | remove (path : String)
  | replace (path value : String)
  | test (path value : String)
  deriving Repr, DecidableEq

def fieldGet (fs : List (String × String)) (k : String) : Option String :=
  (fs.find? (fun p => p.1 == k)).map (fun p => p.2)

/-- Modelled from the spec: GenPatch (defined in a repository file not
under src/, called by R.PatchObj) computes an edit script sufficient to
transform old into new; in paranoid mode every changed field is preceded
by a test op asserting its old value.  It never fails on the model
values used here. -/
def GenPatch (old nw : MModel) (paranoid : Bool) : Except String (List PatchOp) :=
  .ok (
    (old.fields.map fun kv =>
      match fieldGet nw.fields kv.1 with
      | none => (if paranoid then [PatchOp.test kv.1 kv.2] else []) ++ [PatchOp.remove kv.1]
      | some v =>
        if v == kv.2 then []
        else (if paranoid then [PatchOp.test kv.1 kv.2] else []) ++ [PatchOp.replace kv.1 v]).flatten
    ++ (nw.fields.filter (fun kv => (fieldGet old.fields kv.1).isNone)).map
        (fun kv => PatchOp.add kv.1 kv.2))

/-! ## Client and request builder -/

/-- The resolved request URL: everything before the query, plus the raw
query string (url.URL observed through its RawQuery and String()). -/
structure Url where
  base : String
  rawQuery : String := ""
  deriving Repr, DecidableEq

/-- api.Client: endpoint, credentials, current token (nil or a value),
closed flag, session-wide trace defaults.  The mutex, the transport pool
and the closer channel are concurrency machinery outside the shallow
embedding; the closed flag is the state Close leaves behind. -/
structure Client where
  endpoint : String
  username : String := ""
  password : String := ""
  token : Option String := none
  closed : Bool := false
  traceLvl : String := ""
  traceToken : String := ""
  deriving Repr, DecidableEq

/-- Client.Token: the current token value, or "" when no token is held. -/
def Client.Token (c : Client) : String :=
  match c.token with
  | none => ""
  | some t => t

/-- Client.UrlFor: endpoint + path.Join("/api/v3", path.Join(args...)).
url.ParseRequestURI succeeds for every endpoint and path the embedding
is evaluated at, so the parse is modelled as total. -/
def Client.UrlFor (c : Client) (args : List String) : Url :=
  { base := c.endpoint ++ "/api/v3/" ++ String.intercalate "/" args, rawQuery := "" }

/-- Client.Close: signals the renewal loop and marks the session closed. -/
def Client.Close (c : Client) : Client :=
  { c with closed := true }

/-- The body source recorded on the builder (io.Reader in the source). -/
inductive ReqBody where
  | stream
  | bytes (bs : List Nat)
  | jsonPatch (p : List PatchOp)
  | jsonModel (m : MModel)
  deriving Repr, DecidableEq

/-- The argument given to R.Body, before the duck-typed dispatch. -/
inductive BodyArg where
  | bNil
  | bReader
  | bBytes (bs : List Nat)
  | bPatch (p : List PatchOp)
  | bModel (m : MModel)
  deriving Repr, DecidableEq

/-- api.R: one request/response round trip being built. -/
structure R where
  c : Client
  method : String := "GET"
  uri : Option Url := none
  header : Header := []
  body : Option ReqBody := none
  err : MError := {}
  paranoid : Bool := false
  traceLvl : String := ""
  traceToken : String := ""
  deriving Repr, DecidableEq

/-- Client.Req: a fresh builder carrying the session trace defaults and
an empty CLIENT_ERROR accumulator, defaulting to GET. -/
def Client.Req (c : Client) : R :=
  { c := c
    traceLvl := c.traceLvl
    traceToken := c.traceToken
    method := "GET"
    header := []
    err := { etype := "CLIENT_ERROR" } }

def R.Meth (r : R) (v : String) : R :=
  { r with method := v }

def R.Get (r : R) : R :=
  r.Meth "GET"

def R.Del (r : R) : R :=
  r.Meth "DELETE"

def R.Head (r : R) : R :=
  r.Meth "HEAD"

/-- R.Trace: per-request trace level override. -/
def R.Trace (r : R) (lvl : String) : R :=
  { r with traceLvl := lvl }

/-- R.UrlFor: resolve the request URL from path components. -/
def R.UrlFor (r : R) (args : List String) : R :=
  { r with uri := some (r.c.UrlFor args) }

/-- R.UrlForM: record the model identity on the accumulator and resolve
the URL from its type identifier and key. -/
def R.UrlForM (r : R) (m : MModel) (rest : List String) : R :=
  let e := { r.err with model := m.pfix, key := m.mkey }
  R.UrlFor { r with err := e } ([m.pfix, m.mkey] ++ rest)

/-- R.Params: replace the URL query with exactly the given key/value
pairs; requires a resolved URL and an even argument count. -/
def R.Params (r : R) (args : List String) : R :=
  match r.uri with
  | none => { r with err := r.err.errorf "Cannot call WithParams before UrlFor or UrlForM" }
  | some u =>
    if args.length % 2 == 1 then
      { r with err := r.err.errorf "WithParams was not passed an even number of arguments" }
    else
      { r with uri := some { u with rawQuery := valuesEncode (valuesOfPairs args []) } }

/-- The (key, value) pairs of a flat argument list, in order. -/
def pairsOf : List String → List (String × String)
  | k :: v :: rest => (k, v) :: pairsOf rest
  | _ => []

/-- R.Headers: Add each given pair to the header set, in order; requires
an even argument count. -/
def R.Headers (r : R) (args : List String) : R :=
  if args.length % 2 == 1 then
    { r with err := r.err.errorf "WithHeaders was not passed an even number of arguments" }
  else
    { r with header := (pairsOf args).foldl (fun h p => h.add p.1 p.2) r.header }

/-- R.Body: duck-typed dispatch on the body argument.  nil sets only the
JSON content type; readers and byte slices become octet-stream bodies;
anything else is marshalled to JSON (marshalling a patch or a model
value succeeds, so the AddError branch of the source is not reachable
for the argument shapes modelled here). -/
def R.Body (r : R) (b : BodyArg) : R :=
  match b with
  | .bNil => r.Headers ["Content-Type", "application/json"]
  | .bReader =>
    { r.Headers ["Content-Type", "application/octet-stream"] with body := some .stream }
  | .bBytes bs =>
    { r.Headers ["Content-Type", "application/octet-stream"] with body := some (.bytes bs) }
  | .bPatch p =>
    { r.Headers ["Content-Type", "application/json"] with body := some (.jsonPatch p) }
  | .bModel m =>
    { r.Headers ["Content-Type", "application/json"] with body := some (.jsonModel m) }

/-- R.Put -/
def R.Put (r : R) (b : BodyArg) : R :=
  (r.Meth "PUT").Body b

/-- R.Post -/
def R.Post (r : R) (b : BodyArg) : R :=
  (r.Meth "POST").Body b

/-- R.Patch: PATCH method with a JSON-patch body. -/
def R.Patch (r : R) (p : List PatchOp) : R :=
  (r.Meth "PATCH").Body (.bPatch p)

/-- R.ParanoidPatch -/
def R.ParanoidPatch (r : R) : R :=
  { r with paranoid := true }

/-! ## The filter compiler -/

/-- One clause of the filter grammar: from the leading token f and the
remaining tokens, either the parameters this clause emits together with
the tokens left over, or the error message the source records.  This is
one iteration of the for-loop body of R.Filter. -/
def clauseStep (f : String) (rest : List String) :
    Except String (List String × List String) :=
  if f == "reverse" then .ok ([f, "true"], rest)
  else if f == "sort" || f == "limit" || f == "offset" then
    match rest with
    | [] => .error ("Invalid Filter: " ++ f ++ " requires exactly one parameter")
    | v :: rest2 => .ok ([f, v], rest2)
  else
    match rest with
    | [] => .error ("Invalid Filter: " ++ f ++ " requires an op and at least 1 parameter")
    | opRaw :: rest2 =>
      let op := normOp opRaw
      if op == "Eq" || op == "Lt" || op == "Lte" || op == "Gt" || op == "Gte" || op == "Ne" then
        match rest2 with
        | [] => .error ("Invalid Filter: " ++ f ++ " op " ++ op ++ " requires 1 parameter")
        | v :: rest3 => .ok ([f, op ++ "(" ++ v ++ ")"], rest3)
      else if op == "Between" || op == "Except" then
        match rest2 with
        | v1 :: v2 :: rest3 => .ok ([f, op ++ "(" ++ v1 ++ "," ++ v2 ++ ")"], rest3)
        | _ => .error ("Invalid Filter: " ++ f ++ " op " ++ op ++ " requires 2 parameters")
      else
        .error ("Invalid Filter " ++ f ++ ": unknown op " ++ op)

/-- The filter token loop, recursing on an explicit fuel bound.  Each
clause consumes at least its leading token, so whenever the fuel bounds
the list length the fuel-zero branch is unreachable (filterLoopGo_fuel
below makes the fuel irrelevant). -/
def filterLoopGo : Nat → List String → Except String (List String)
  | _, [] => .ok []
  | 0, _ :: _ => .ok []
  | fuel + 1, f :: rest =>
    match clauseStep f rest with
    | .error m => .error m
    | .ok (ps, rest2) => (filterLoopGo fuel rest2).map (fun acc => ps ++ acc)

/-- The token-consuming loop of R.Filter: either the final flat
parameter list handed to Params, or the first error message recorded on
the accumulator. -/
def filterLoop (args : List String) : Except String (List String) :=
  filterLoopGo args.length args

/-- R.Filter: GET on the type identifier, then compile the filter
tokens; an error anywhere in the token stream is recorded on the
accumulator and Params is never reached, otherwise the compiled flat
list becomes the query via Params. -/
def R.Filter (r : R) (pfx : String) (filterArgs : List String) : R :=
  let r1 := (r.Get).UrlFor [pfx]
  match filterLoop filterArgs with
  | .error msg => { r1 with err := r1.err.errorf msg }
  | .ok ps => r1.Params ps

/-! ## Patch generation requests -/

/-- R.PatchObj: generate the patch (honouring the paranoid flag) and
install it as a PATCH body; a generation error joins the accumulator. -/
def R.PatchObj (r : R) (old nw : MModel) : R :=
  match GenPatch old nw r.paranoid with
  | .error msg => { r with err := r.err.addError msg }
  | .ok b => (r.Meth "PATCH").Body (.bPatch b)

/-- The identity-mismatch message of R.PatchTo.  The %T verbs render the
concrete Go types of the two models; the type identifier stands for
them here. -/
def patchMismatchMsg (old nw : MModel) : String :=
  "Cannot patch from " ++ old.pfix ++ " to " ++ nw.pfix ++
  ", or change keys from " ++ old.mkey ++ " to " ++ nw.mkey

/-- R.PatchTo: refuse to diff across different type identifiers or
different keys — record the mismatch and return the builder untouched
otherwise; on matching identity, delegate to PatchObj and resolve the
URL from the old model.  The source assigns err.Model twice (first the
type identifier, then the key: the second assignment reads like it was
meant for err.Key), so the final Model context is the key. -/
def R.PatchTo (r : R) (old nw : MModel) : R :=
  if !(old.pfix == nw.pfix) || !(old.mkey == nw.mkey) then
    let e := { r.err with model := old.mkey }
    { r with err := e.errorf (patchMismatchMsg old nw) }
  else
    (r.PatchObj old nw).UrlForM old []

/-! ## Request execution -/

/-- The shape of the destination value handed to Do: nil, a raw byte
sink (io.Writer), or a structured value to decode into. -/
inductive Dest where
  | dnil
  | dwriter
  | dvalue
  deriving Repr, DecidableEq

/-- An HTTP response as Do observes it: status, declared content type,
content length, and oracles for the outcomes of the operations that
consume the body bytes (copying to a sink, decoding as a models.Error,
decoding into the destination). -/
structure HttpResponse where
  statusCode : Nat
  contentType : String := ""
  contentLength : Int := 0
  copyErr : Option String := none
  errBodyDecode : Except String MError := .ok {}
  valBodyDecode : Option String := none
  deriving Repr

/-- The outcome of handing the built request to the transport. -/
inductive Transport where
  | failure (msg : String)
  | response (resp : HttpResponse)
  deriving Repr

/-- http.StatusText for the codes exercised here ("" for the rest, as
in Go for unassigned codes). -/
def statusText : Nat → String
  | 200 => "OK"
  | 300 => "Multiple Choices"
  | 302 => "Found"
  | 304 => "Not Modified"
  | 400 => "Bad Request"
  | 403 => "Forbidden"
  | 404 => "Not Found"
  | 500 => "Internal Server Error"
  | _ => ""

/-- Whether a character is ASCII whitespace (the space forms Go
strings.TrimSpace strips from the inputs seen here). -/
def isSpaceChar (c : Char) : Bool :=
  c.toNat == 32 || c.toNat == 9 || c.toNat == 10 ||
  c.toNat == 13 || c.toNat == 11 || c.toNat == 12

/-- Trim ASCII whitespace from both ends. -/
def strTrim (s : String) : String :=
  String.mk (((s.toList.dropWhile isSpaceChar).reverse.dropWhile isSpaceChar).reverse)

/-- mime.ParseMediaType reduced to what Do consumes: the media type
before any parameters, trimmed and lowercased. -/
def parseMediaType (ct : String) : String :=
  asciiLower (strTrim (String.mk (ct.toList.takeWhile (fun c => !(c == ';')))))

/-- Everything observable about one Do call: the returned error (none
is the nil error), whether an http.Request was constructed, whether the
transport was invoked, the header of the outgoing request ([] when none
was built), and whether the body was copied to the sink or decoded into
the destination. -/
structure DoResult where
  err : Option MError
  reqBuilt : Bool
  sent : Bool
  reqHeader : Header
  wrote : Bool
  decoded : Bool
  deriving Repr, DecidableEq

/-- The builder after Do installs its headers: the trace pair when a
trace level is set, Accept application/json always, and additionally
Accept application/octet-stream when the destination is a raw byte
sink. -/
def R.withDoHeaders (r : R) (val : Dest) : R :=
  let r1 := if r.traceLvl == "" then r
    else (r.Headers ["X-Log-Request", r.traceLvl]).Headers ["X-Log-Token", r.traceToken]
  let r2 := r1.Headers ["Accept", "application/json"]
  match val with
  | .dwriter => r2.Headers ["Accept", "application/octet-stream"]
  | _ => r2

/-- The header of the outgoing http.Request: the builder header after
withDoHeaders, with the bearer Authorization injected by
Client.Authorize unless one was set explicitly. -/
def R.outHeader (r : R) (val : Dest) : Header :=
  let h := (r.withDoHeaders val).header
  if h.get "Authorization" == "" then
    h.set "Authorization" ("Bearer " ++ r.c.Token)
  else h

/-- The network-interaction phase of Do, reached only after all three
precondition checks pass: install the headers, build the http.Request,
hand it to the transport and dispatch on the outcome exactly as the
source does. -/
def R.doNet (r : R) (val : Dest) (net : Transport) : DoResult :=
  let r3 := r.withDoHeaders val
  let hdr := r.outHeader val
  match net with
      | .failure msg =>
        { err := some (r3.err.addError msg), reqBuilt := true, sent := true,
          reqHeader := hdr, wrote := false, decoded := false }
      | .response resp =>
        if val == .dwriter && resp.statusCode < 300 then
          let e := match resp.copyErr with
            | some m => r3.err.addError m
            | none => r3.err
          { err := e.hasError, reqBuilt := true, sent := true, reqHeader := hdr,
            wrote := true, decoded := false }
        else if r3.method == "HEAD" then
          if resp.statusCode ≤ 300 then
            { err := none, reqBuilt := true, sent := true, reqHeader := hdr,
              wrote := false, decoded := false }
          else
            { err := some { r3.err.errorf (statusText resp.statusCode) with code := resp.statusCode },
              reqBuilt := true, sent := true, reqHeader := hdr, wrote := false, decoded := false }
        else
          let mt := parseMediaType resp.contentType
          if mt == "application/json" then
            if 400 ≤ resp.statusCode then
              match resp.errBodyDecode with
              | .error m =>
                { err := some { r3.err.addError m with code := resp.statusCode },
                  reqBuilt := true, sent := true, reqHeader := hdr, wrote := false, decoded := false }
              | .ok res =>
                { err := some res, reqBuilt := true, sent := true, reqHeader := hdr,
                  wrote := false, decoded := false }
            else
              let doDecode := !(val == .dnil) && !(resp.contentLength == 0)
              let e := if doDecode then
                  match resp.valBodyDecode with
                  | some m => r3.err.addError m
                  | none => r3.err
                else r3.err
              { err := e.hasError, reqBuilt := true, sent := true, reqHeader := hdr,
                wrote := false, decoded := doDecode }
          else
            let e := (r3.err.errorf ("Cannot handle content-type " ++ resp.contentType)).errorf
                ("No decoder for content-type " ++ resp.contentType)
            { err := some e, reqBuilt := true, sent := true, reqHeader := hdr,
              wrote := false, decoded := false }

/-- R.Do: the single execution step.  Precondition checks run in source
order — resolved URL, open session, empty accumulator — and each failure
returns before any request is constructed or sent; only then does the
network phase run. -/
def R.Do (r : R) (val : Dest) (net : Transport) : DoResult :=
  match r.uri with
  | none =>
    { err := some (r.err.errorf "No URL to talk to"), reqBuilt := false, sent := false,
      reqHeader := [], wrote := false, decoded := false }
  | some _ =>
    if r.c.closed then
      { err := some (r.err.errorf "Connection Closed"), reqBuilt := false, sent := false,
        reqHeader := [], wrote := false, decoded := false }
    else if r.err.containsError then
      { err := some r.err, reqBuilt := false, sent := false,
        reqHeader := [], wrote := false, decoded := false }
    else
      r.doNet val net

/-! ## CRUD helpers built on Do -/

/-- Client.ExistsModel: HEAD the object URL and fold a 404 into false
with no error; success is true, anything else propagates. -/
def Client.ExistsModel (c : Client) (pfx ky : String) (net : Transport) : Bool × Option MError :=
  let res := (((c.Req).Head).UrlFor [pfx, ky]).Do .dnil net
  match res.err with
  | some e => if e.code == 404 then (false, none) else (false, some e)
  | none => (true, none)

/-! ## Session construction and renewal -/

/-- One base64 digit of the standard encoding. -/
def b64Char (n : Nat) : Char :=
  if n < 26 then Char.ofNat (65 + n)
  else if n < 52 then Char.ofNat (97 + (n - 26))
  else if n < 62 then Char.ofNat (48 + (n - 52))
  else if n == 62 then Char.ofNat 43
  else Char.ofNat 47

/-- base64.StdEncoding.EncodeToString on a byte list. -/
def b64Encode : List Nat → String
  | [] => ""
  | [a] =>
    String.mk [b64Char (a / 4), b64Char ((a % 4) * 16)] ++ "=="
  | [a, b] =>
    String.mk [b64Char (a / 4), b64Char ((a % 4) * 16 + b / 16), b64Char ((b % 16) * 4)] ++ "="
  | a :: b :: c :: rest =>
    String.mk [b64Char (a / 4), b64Char ((a % 4) * 16 + b / 16),
      b64Char ((b % 16) * 4 + c / 64), b64Char (c % 64)] ++ b64Encode rest

/-- The Basic credential string UserSession computes. -/
def basicAuthOf (username password : String) : String :=
  b64Encode (strBytes (username ++ ":" ++ password))

/-- The single blocking initial authentication request of UserSession:
users/<username>/token with a Basic Authorization header and no query
parameters. -/
def initialAuthReq (c : Client) : R :=
  ((c.Req).UrlFor ["users", c.username, "token"]).Headers
    ["Authorization", "Basic " ++ basicAuthOf c.username c.password]

/-- The request Client.reauth builds: users/<username>/token with the
query ttl=600. -/
def Client.reauthReq (c : Client) : R :=
  ((c.Req).UrlFor ["users", c.username, "token"]).Params ["ttl", "600"]

/-- The period of the background renewal ticker, in seconds
(time.NewTicker(300 * time.Second)). -/
def renewalPeriodSeconds : Nat := 300

/-- Which channel of the renewal select fires first. -/
inductive LoopEvent where
  | closerFired
  | tick
  deriving Repr, DecidableEq

/-- What one iteration of the renewal goroutine does. -/
inductive RenewalOutcome where
  | exited
  | fatal (e : MError)
  | swapped (c : Client)
  deriving Repr, DecidableEq

/-- One iteration of the renewal goroutine of UserSession: the closer
channel stops the ticker and exits the loop; a ticker fire performs the
blocking reauth call — failure is fatal (log.Fatalf), success replaces
the token wholesale (under the session mutex) with the freshly decoded
value. -/
def renewalLoopStep (c : Client) (ev : LoopEvent) (net : Transport) (newTok : String) :
    RenewalOutcome :=
  match ev with
  | .closerFired => .exited
  | .tick =>
    match ((c.reauthReq).Do .dvalue net).err with
    | some e => .fatal e
    | none => .swapped { c with token := some newTok }

/-! ## Concrete fixtures used by witnesses and counterexamples -/

/-- An open session against a fixed endpoint. -/
def cOpen : Client := { endpoint := "https://e" }

/-- The same session after Close. -/
def cClosed : Client := Client.Close { endpoint := "https://e" }

/-- A transport stub; the precondition claims never let Do reach it. -/
def netStub : Transport := .failure "dial tcp 127.0.0.1:8092: connection refused"

/-- The C4 example request: GET machines with the example filter. -/
def c4R : R := (cOpen.Req).Filter "machines" ["name", "Eq", "foo", "limit", "10"]

/-- Two models of the same type with different keys. -/
def oldM : MModel := { pfix := "machines", mkey := "m1" }

def nwM : MModel := { pfix := "machines", mkey := "m2" }

/-- A username/password session fixture. -/
def c6Client : Client := { endpoint := "https://e", username := "u", password := "p" }

/-- A successful JSON response with a non-empty body. -/
def respJson200 : HttpResponse :=
  { statusCode := 200, contentType := "application/json", contentLength := 1 }

/-! ## Supporting lemmas -/

theorem headers_pair (r : R) (k v : String) :
    r.Headers [k, v] = { r with header := r.header ++ [(k, v)] } := by
  simp [R.Headers, pairsOf, Header.add]

@[simp] theorem withDoHeaders_err (r : R) (val : Dest) :
    (r.withDoHeaders val).err = r.err := by
  cases val <;> by_cases h : r.traceLvl == "" <;>
    simp [R.withDoHeaders, headers_pair, h]

@[simp] theorem withDoHeaders_method (r : R) (val : Dest) :
    (r.withDoHeaders val).method = r.method := by
  cases val <;> by_cases h : r.traceLvl == "" <;>
    simp [R.withDoHeaders, headers_pair, h]

@[simp] theorem withDoHeaders_c (r : R) (val : Dest) :
    (r.withDoHeaders val).c = r.c := by
  cases val <;> by_cases h : r.traceLvl == "" <;>
    simp [R.withDoHeaders, headers_pair, h]

theorem withDoHeaders_header (r : R) (val : Dest) :
    (r.withDoHeaders val).header =
      (if r.traceLvl == "" then r.header
        else r.header ++ [("X-Log-Request", r.traceLvl), ("X-Log-Token", r.traceToken)]) ++
      [("Accept", "application/json")] ++
      (if val = .dwriter then [("Accept", "application/octet-stream")] else []) := by
  cases val <;> by_cases h : r.traceLvl == "" <;>
    simp [R.withDoHeaders, headers_pair, h]

theorem valuesOf_append (h1 h2 : Header) (k : String) :
    Header.valuesOf (h1 ++ h2) k = Header.valuesOf h1 k ++ Header.valuesOf h2 k := by
  simp [Header.valuesOf, List.filter_append]

/-- Setting one key leaves the values of every other key unchanged. -/
theorem valuesOf_set_ne (h : Header) (k k2 v : String) (hne : ¬ k2 = k) :
    Header.valuesOf (Header.set h k2 v) k = Header.valuesOf h k := by
  have hb : (k2 == k) = false := beq_eq_false_iff_ne.mpr hne
  simp only [Header.set, Header.valuesOf, List.filter_append, List.filter_filter,
    List.map_append]
  have h1 : List.filter (fun p => p.1 == k) [(k2, v)] = ([] : Header) := by
    simp [hb]
  rw [h1, List.map_nil, List.append_nil]
  refine congrArg _ (List.filter_congr ?_)
  intro x _
  by_cases hx : x.1 = k
  · subst hx
    simp [beq_eq_false_iff_ne.mpr (fun hk => hne hk.symm)]
  · simp [beq_eq_false_iff_ne.mpr hx]

/-- Once the three precondition checks pass, Do is the network phase. -/
theorem do_open (r : R) (u : Url) (val : Dest) (net : Transport)
    (hu : r.uri = some u) (hc : r.c.closed = false) (he : r.err.containsError = false) :
    r.Do val net = r.doNet val net := by
  simp [R.Do, hu, hc, he]

/-- Every branch of the network phase reports the transport as invoked,
the request as built, and carries the outgoing header. -/
theorem doNet_invariants (r : R) (val : Dest) (net : Transport) :
    (r.doNet val net).sent = true ∧ (r.doNet val net).reqBuilt = true ∧
    (r.doNet val net).reqHeader = r.outHeader val := by
  cases net with
  | failure msg => simp [R.doNet]
  | response resp =>
    simp only [R.doNet]
    split
    · simp
    · split
      · split <;> simp
      · split
        · split
          · split <;> simp
          · simp
        · simp

/-- Every successful clause leaves no more tokens than it was given. -/
theorem clauseStep_length (f : String) (rest ps left : List String)
    (h : clauseStep f rest = .ok (ps, left)) : left.length ≤ rest.length := by
  simp only [clauseStep] at h
  repeat any_goals split at h
  all_goals try simp_all
  all_goals omega

/-- Every successful clause emits exactly one key/value parameter pair. -/
theorem clauseStep_emits (f : String) (rest ps left : List String)
    (h : clauseStep f rest = .ok (ps, left)) : ps.length = 2 := by
  simp only [clauseStep] at h
  repeat any_goals split at h
  all_goals try simp_all
  all_goals (obtain ⟨hps, -⟩ := h; simp [← hps])

/-- The fuel is irrelevant once it bounds the list length. -/
theorem filterLoopGo_fuel (fuel : Nat) : ∀ (fuel2 : Nat) (l : List String),
    l.length ≤ fuel → l.length ≤ fuel2 → filterLoopGo fuel l = filterLoopGo fuel2 l := by
  induction fuel with
  | zero =>
    intro fuel2 l h h2
    cases l with
    | nil => cases fuel2 <;> rfl
    | cons f rest => simp at h
  | succ n ih =>
    intro fuel2 l h h2
    cases l with
    | nil => cases fuel2 <;> rfl
    | cons f rest =>
      cases fuel2 with
      | zero => simp at h2
      | succ m =>
        have hln : rest.length ≤ n := by simpa using h
        have hlm : rest.length ≤ m := by simpa using h2
        cases hc : clauseStep f rest with
        | error msg => simp [filterLoopGo, hc]
        | ok pr =>
          obtain ⟨ps, left⟩ := pr
          have hl := clauseStep_length f rest ps left hc
          have hrec := ih m left (le_trans hl hln) (le_trans hl hlm)
          simp [filterLoopGo, hc, hrec]

theorem filterLoop_nil : filterLoop [] = .ok [] := rfl

theorem intercalate_single (x : String) : String.intercalate "/" [x] = x := rfl

/-- Unfolding one clause of the filter loop. -/
theorem filterLoop_cons (f : String) (rest : List String) :
    filterLoop (f :: rest) =
      match clauseStep f rest with
      | .error m => .error m
      | .ok (ps, left) => (filterLoop left).map (fun acc => ps ++ acc) := by
  cases hc : clauseStep f rest with
  | error msg => simp [filterLoop, filterLoopGo, hc]
  | ok pr =>
    obtain ⟨ps, left⟩ := pr
    have hl := clauseStep_length f rest ps left hc
    have hf := filterLoopGo_fuel rest.length left.length left hl le_rfl
    simp [filterLoop, filterLoopGo, hc, hf]

/-- A successful filter loop emits an even parameter list. -/
theorem filterLoopGo_ok_even (fuel : Nat) : ∀ (l ps : List String),
    filterLoopGo fuel l = .ok ps → ps.length % 2 = 0 := by
  induction fuel with
  | zero =>
    intro l ps h
    cases l <;> simp only [filterLoopGo] at h <;> cases h <;> rfl
  | succ n ih =>
    intro l ps h
    cases l with
    | nil => cases h; rfl
    | cons f rest =>
      simp only [filterLoopGo] at h
      cases hc : clauseStep f rest with
      | error msg => simp [hc] at h
      | ok pr =>
        obtain ⟨qs, left⟩ := pr
        cases hr : filterLoopGo n left with
        | error msg => simp [hc, hr, Except.map] at h
        | ok acc =>
          simp [hc, hr, Except.map] at h
          have h2 := clauseStep_emits f rest qs left hc
          have h3 := ih left acc hr
          subst h
          simp [List.length_append, h2]
          omega

/-- A successful filter compilation hands Params an even token list. -/
theorem filterLoop_ok_even (args ps : List String)
    (h : filterLoop args = .ok ps) : ps.length % 2 = 0 :=
  filterLoopGo_ok_even args.length args ps h

/-! ## C1 -/

/-- C1: Do checks its preconditions before any network interaction, in
source order: with no resolved URL it returns the no-URL error; with a
URL but a closed session it returns the connection-closed error; with a
URL, an open session and a previously recorded error it returns the
accumulated error — and in each case no http.Request is built and the
transport is never invoked. -/
theorem c1_do_precondition_order (r : R) (val : Dest) (net : Transport) :
    (r.uri = none →
      r.Do val net =
        { err := some (r.err.errorf "No URL to talk to"), reqBuilt := false,
          sent := false, reqHeader := [], wrote := false, decoded := false })
  ∧ (∀ u, r.uri = some u → r.c.closed = true →
      r.Do val net =
        { err := some (r.err.errorf "Connection Closed"), reqBuilt := false,
          sent := false, reqHeader := [], wrote := false, decoded := false })
  ∧ (∀ u, r.uri = some u → r.c.closed = false → r.err.containsError = true →
      r.Do val net =
        { err := some r.err, reqBuilt := false,
          sent := false, reqHeader := [], wrote := false, decoded := false }) := by
  refine ⟨fun h => by simp [R.Do, h], fun u hu hc => by simp [R.Do, hu, hc],
    fun u hu hc he => by simp [R.Do, hu, hc, he]⟩

/-- C1 witness: the three precondition failures at concrete inputs — a
fresh builder with no URL, a closed session with a URL, and an odd
Params call leaving an accumulated error. -/
theorem c1_do_precondition_order_witness :
    ((cOpen.Req).Do .dnil netStub =
      { err := some ((cOpen.Req).err.errorf "No URL to talk to"), reqBuilt := false,
        sent := false, reqHeader := [], wrote := false, decoded := false })
  ∧ (((cClosed.Req).UrlFor ["machines"]).Do .dnil netStub =
      { err := some (((cClosed.Req).UrlFor ["machines"]).err.errorf "Connection Closed"),
        reqBuilt := false, sent := false, reqHeader := [], wrote := false, decoded := false })
  ∧ ((((cOpen.Req).UrlFor ["machines"]).Params ["odd"]).Do .dnil netStub =
      { err := some ((((cOpen.Req).UrlFor ["machines"]).Params ["odd"]).err), reqBuilt := false,
        sent := false, reqHeader := [], wrote := false, decoded := false }) :=
  ⟨(c1_do_precondition_order (cOpen.Req) .dnil netStub).1 rfl,
   (c1_do_precondition_order ((cClosed.Req).UrlFor ["machines"]) .dnil netStub).2.1 _ rfl rfl,
   (c1_do_precondition_order ((((cOpen.Req).UrlFor ["machines"]).Params ["odd"])) .dnil
     netStub).2.2 _ rfl rfl (by decide)⟩

/-! ## C2 -/

/-- C2 counterexample: after Close, a NewRequest().Do(...) call with no
URL resolved returns the no-URL error, not a connection-closed error —
the closed check runs only after the URL check. -/
theorem c2_counterexample :
    ((cClosed.Req).Do .dnil netStub).sent = false
  ∧ ((cClosed.Req).Do .dnil netStub).err =
      some { etype := "CLIENT_ERROR", messages := ["No URL to talk to"] }
  ∧ ¬ ("Connection Closed" ∈ (((cClosed.Req).Do .dnil netStub).err.getD {}).messages) := by
  refine ⟨rfl, rfl, by decide⟩

/-- C2 (amended): after Close, every request built from the session
fails before the transport is invoked and before a request is built;
when a URL has been resolved the error is the connection-closed error
(with no URL resolved it is the no-URL error instead). -/
theorem c2_closed_no_network (r : R) (val : Dest) (net : Transport)
    (h : r.c.closed = true) :
    (r.Do val net).sent = false ∧ (r.Do val net).reqBuilt = false
  ∧ (∀ u, r.uri = some u →
      r.Do val net =
        { err := some (r.err.errorf "Connection Closed"), reqBuilt := false,
          sent := false, reqHeader := [], wrote := false, decoded := false }) := by
  rcases hu : r.uri with _ | u <;> simp [R.Do, hu, h]

/-- C2 witness: a closed session, a resolved URL: Do returns the
connection-closed error without touching the network. -/
theorem c2_closed_no_network_witness :
    (((cClosed.Req).UrlFor ["machines", "m1"]).Do .dvalue netStub).sent = false
  ∧ (((cClosed.Req).UrlFor ["machines", "m1"]).Do .dvalue netStub).reqBuilt = false
  ∧ (((cClosed.Req).UrlFor ["machines", "m1"]).Do .dvalue netStub =
      { err := some ((((cClosed.Req).UrlFor ["machines", "m1"])).err.errorf "Connection Closed"),
        reqBuilt := false, sent := false, reqHeader := [], wrote := false, decoded := false }) :=
  have h := c2_closed_no_network ((cClosed.Req).UrlFor ["machines", "m1"]) .dvalue netStub rfl
  ⟨h.1, h.2.1, h.2.2 _ rfl⟩

/-! ## C3 -/

/-- C3: the filter compiler consumes tokens strictly left to right:
reverse emits one parameter pair; sort, limit and offset each consume
exactly one following token (none left is an error); any other token
starts a comparison clause whose operator is case-insensitive and
normalized to title case, where Eq, Lt, Lte, Gt, Gte and Ne consume one
further value token and emit op(value), Between and Except consume two
and emit op(lower,upper), any other operator is a hard error, and
running out of required follow-up tokens for any clause is an error. -/
theorem c3_filter_grammar (idx opRaw v v1 v2 : String) (rest : List String)
    (hidx : idx ≠ "reverse" ∧ idx ≠ "sort" ∧ idx ≠ "limit" ∧ idx ≠ "offset") :
    (filterLoop ("reverse" :: rest) = (filterLoop rest).map (fun ps => "reverse" :: "true" :: ps))
  ∧ (∀ kw, kw = "sort" ∨ kw = "limit" ∨ kw = "offset" →
      filterLoop [kw] = .error ("Invalid Filter: " ++ kw ++ " requires exactly one parameter")
    ∧ filterLoop (kw :: v :: rest) = (filterLoop rest).map (fun ps => kw :: v :: ps))
  ∧ (filterLoop [idx] =
      .error ("Invalid Filter: " ++ idx ++ " requires an op and at least 1 parameter"))
  ∧ (normOp opRaw = "Eq" ∨ normOp opRaw = "Lt" ∨ normOp opRaw = "Lte" ∨
      normOp opRaw = "Gt" ∨ normOp opRaw = "Gte" ∨ normOp opRaw = "Ne" →
      filterLoop [idx, opRaw] =
        .error ("Invalid Filter: " ++ idx ++ " op " ++ normOp opRaw ++ " requires 1 parameter")
    ∧ filterLoop (idx :: opRaw :: v :: rest) =
        (filterLoop rest).map (fun ps => idx :: (normOp opRaw ++ "(" ++ v ++ ")") :: ps))
  ∧ (normOp opRaw = "Between" ∨ normOp opRaw = "Except" →
      filterLoop [idx, opRaw] =
        .error ("Invalid Filter: " ++ idx ++ " op " ++ normOp opRaw ++ " requires 2 parameters")
    ∧ filterLoop [idx, opRaw, v1] =
        .error ("Invalid Filter: " ++ idx ++ " op " ++ normOp opRaw ++ " requires 2 parameters")
    ∧ filterLoop (idx :: opRaw :: v1 :: v2 :: rest) =
        (filterLoop rest).map (fun ps => idx :: (normOp opRaw ++ "(" ++ v1 ++ "," ++ v2 ++ ")") :: ps))
  ∧ (¬ normOp opRaw ∈ ["Eq", "Lt", "Lte", "Gt", "Gte", "Ne", "Between", "Except"] →
      ∀ rest2, filterLoop (idx :: opRaw :: rest2) =
        .error ("Invalid Filter " ++ idx ++ ": unknown op " ++ normOp opRaw)) := by
  obtain ⟨h1, h2, h3, h4⟩ := hidx
  have h1b : (idx == "reverse") = false := beq_eq_false_iff_ne.mpr h1
  have h2b : (idx == "sort") = false := beq_eq_false_iff_ne.mpr h2
  have h3b : (idx == "limit") = false := beq_eq_false_iff_ne.mpr h3
  have h4b : (idx == "offset") = false := beq_eq_false_iff_ne.mpr h4
  refine ⟨?_, ?_, ?_, ?_, ?_, ?_⟩
  · rw [filterLoop_cons]
    simp [clauseStep]
  · rintro kw (rfl | rfl | rfl) <;>
      exact ⟨by rw [filterLoop_cons]; simp [clauseStep],
        by rw [filterLoop_cons]; simp [clauseStep]⟩
  · rw [filterLoop_cons]
    simp [clauseStep, h1b, h2b, h3b, h4b]
  · rintro (h | h | h | h | h | h) <;>
      exact ⟨by rw [filterLoop_cons]; simp [clauseStep, h1b, h2b, h3b, h4b, h],
        by rw [filterLoop_cons]; simp [clauseStep, h1b, h2b, h3b, h4b, h]⟩
  · rintro (h | h) <;>
      exact ⟨by rw [filterLoop_cons]; simp [clauseStep, h1b, h2b, h3b, h4b, h],
        by rw [filterLoop_cons]; simp [clauseStep, h1b, h2b, h3b, h4b, h],
        by rw [filterLoop_cons]; simp [clauseStep, h1b, h2b, h3b, h4b, h]⟩
  · intro h rest2
    simp only [List.mem_cons, List.not_mem_nil, or_false, not_or] at h
    obtain ⟨n1, n2, n3, n4, n5, n6, n7, n8⟩ := h
    have n1b : (normOp opRaw == "Eq") = false := beq_eq_false_iff_ne.mpr n1
    have n2b : (normOp opRaw == "Lt") = false := beq_eq_false_iff_ne.mpr n2
    have n3b : (normOp opRaw == "Lte") = false := beq_eq_false_iff_ne.mpr n3
    have n4b : (normOp opRaw == "Gt") = false := beq_eq_false_iff_ne.mpr n4
    have n5b : (normOp opRaw == "Gte") = false := beq_eq_false_iff_ne.mpr n5
    have n6b : (normOp opRaw == "Ne") = false := beq_eq_false_iff_ne.mpr n6
    have n7b : (normOp opRaw == "Between") = false := beq_eq_false_iff_ne.mpr n7
    have n8b : (normOp opRaw == "Except") = false := beq_eq_false_iff_ne.mpr n8
    rw [filterLoop_cons]
    cases rest2 with
    | nil =>
      simp [clauseStep, h1b, h2b, h3b, h4b, n1, n2, n3, n4, n5, n6, n7, n8,
        n1b, n2b, n3b, n4b, n5b, n6b, n7b, n8b]
    | cons a l =>
      simp [clauseStep, h1b, h2b, h3b, h4b, n1, n2, n3, n4, n5, n6, n7, n8,
        n1b, n2b, n3b, n4b, n5b, n6b, n7b, n8b]

/-- C3 witness: concrete runs of the grammar — a lowercase op is
normalized and consumes one value; limit alone is an arity error; an
unknown op is a hard error. -/
theorem c3_filter_grammar_witness :
    filterLoop ["name", "eq", "x"] =
      (filterLoop []).map (fun ps => "name" :: (normOp "eq" ++ "(" ++ "x" ++ ")") :: ps)
  ∧ filterLoop ["limit"] = .error ("Invalid Filter: " ++ "limit" ++ " requires exactly one parameter")
  ∧ filterLoop ["name", "bogus", "x"] =
      .error ("Invalid Filter " ++ "name" ++ ": unknown op " ++ normOp "bogus") :=
  have h := c3_filter_grammar "name" "eq" "x" "a" "b" [] (by decide)
  have h2 := c3_filter_grammar "name" "bogus" "x" "a" "b" [] (by decide)
  ⟨(h.2.2.2.1 (by decide)).2, (h.2.1 "limit" (by decide)).1,
    h2.2.2.2.2.2 (by decide) ["x"]⟩

/-! ## C4 -/

/-- C4: the GET request for resource type machines built with the
filter tokens [name, Eq, foo, limit, 10] has a query string holding
exactly the parameters name=Eq(foo) and limit=10: the encoded query is
limit=10&name=Eq%28foo%29, which contains limit=10 and the URL-encoding
of name=Eq(foo) (the parentheses percent-encode as %28/%29). -/
theorem c4_filter_example :
    c4R.method = "GET"
  ∧ c4R.uri = some { base := "https://e/api/v3/machines", rawQuery := "limit=10&name=Eq%28foo%29" }
  ∧ strContains ((c4R.uri.getD { base := "" }).rawQuery)
      (queryEscape "limit" ++ "=" ++ queryEscape "10") = true
  ∧ strContains ((c4R.uri.getD { base := "" }).rawQuery)
      (queryEscape "name" ++ "=" ++ queryEscape "Eq(foo)") = true := by
  refine ⟨rfl, by decide, by decide, by decide⟩

/-! ## C5 -/

/-- C5: PatchTo on models with different type identifiers or different
keys records the identity-mismatch error in the accumulator and
produces no edit script — the body and the URL of the builder are left
untouched — and a subsequent Do returns an error carrying the mismatch
message without building or sending any request. -/
theorem c5_patchto_mismatch (r : R) (old nw : MModel) (val : Dest) (net : Transport)
    (h : old.pfix ≠ nw.pfix ∨ old.mkey ≠ nw.mkey) :
    (r.PatchTo old nw).body = r.body
  ∧ (r.PatchTo old nw).uri = r.uri
  ∧ (r.PatchTo old nw).err.messages = r.err.messages ++ [patchMismatchMsg old nw]
  ∧ ((r.PatchTo old nw).Do val net).sent = false
  ∧ ((r.PatchTo old nw).Do val net).reqBuilt = false
  ∧ ((r.PatchTo old nw).Do val net).err ≠ none
  ∧ patchMismatchMsg old nw ∈ ((((r.PatchTo old nw).Do val net).err.getD {}).messages) := by
  have hc : (!(old.pfix == nw.pfix) || !(old.mkey == nw.mkey)) = true := by
    rcases h with h | h <;> simp [beq_eq_false_iff_ne.mpr h]
  have hp : r.PatchTo old nw =
      { r with err := MError.errorf { r.err with model := old.mkey } (patchMismatchMsg old nw) } := by
    simp [R.PatchTo, hc]
  rw [hp]
  refine ⟨rfl, rfl, by simp [MError.errorf], ?_, ?_, ?_, ?_⟩ <;>
    rcases hu : r.uri with _ | u
  · simp [R.Do, hu]
  · cases hcl : r.c.closed <;>
      simp [R.Do, hu, hcl, MError.containsError, MError.errorf]
  · simp [R.Do, hu]
  · cases hcl : r.c.closed <;>
      simp [R.Do, hu, hcl, MError.containsError, MError.errorf]
  · simp [R.Do, hu]
  · cases hcl : r.c.closed <;>
      simp [R.Do, hu, hcl, MError.containsError, MError.errorf]
  · simp [R.Do, hu, MError.errorf]
  · cases hcl : r.c.closed <;>
      simp [R.Do, hu, hcl, MError.containsError, MError.errorf]

/-- C5 witness: two machines models with keys m1 and m2 on a fresh
builder: the mismatch is recorded, no body installed, and Do fails
without network. -/
theorem c5_patchto_mismatch_witness :
    ((cOpen.Req).PatchTo oldM nwM).body = (cOpen.Req).body
  ∧ ((cOpen.Req).PatchTo oldM nwM).uri = (cOpen.Req).uri
  ∧ ((cOpen.Req).PatchTo oldM nwM).err.messages =
      (cOpen.Req).err.messages ++ [patchMismatchMsg oldM nwM]
  ∧ (((cOpen.Req).PatchTo oldM nwM).Do .dvalue netStub).sent = false
  ∧ (((cOpen.Req).PatchTo oldM nwM).Do .dvalue netStub).reqBuilt = false
  ∧ (((cOpen.Req).PatchTo oldM nwM).Do .dvalue netStub).err ≠ none
  ∧ patchMismatchMsg oldM nwM ∈
      (((((cOpen.Req).PatchTo oldM nwM).Do .dvalue netStub).err.getD {}).messages) :=
  c5_patchto_mismatch (cOpen.Req) oldM nwM .dvalue netStub (.inr (by decide))

/-! ## C6 -/

/-- C6 counterexample: the single blocking initial authentication
request carries no validity-window parameter at all — its query string
is empty, containing no ttl — while only the background
re-authentication request asks for ttl=600; so the initial call does
not request the fixed 600-unit validity window the claim attributes to
it. -/
theorem c6_counterexample :
    (initialAuthReq c6Client).uri =
      some { base := "https://e/api/v3/users/u/token", rawQuery := "" }
  ∧ strContains (((initialAuthReq c6Client).uri.getD { base := "" }).rawQuery) "ttl" = false
  ∧ (Client.reauthReq c6Client).uri =
      some { base := "https://e/api/v3/users/u/token", rawQuery := "ttl=600" } := by
  refine ⟨by decide, by decide, by decide⟩

/-- C6 (amended): the single blocking initial authentication call
requests a token with no explicit validity window (the 600-time-unit
window is requested, as ttl=600, only by the re-authentication
requests); the background timer fires every 300 time-units, and each
fire performs the blocking re-authentication, which on success swaps
the token wholesale (under the session mutex) and on failure is fatal;
the closer event exits the renewal loop. -/
theorem c6_renewal (c : Client) (net : Transport) (tok : String) :
    ((initialAuthReq c).uri.map Url.rawQuery) = some ""
  ∧ ((Client.reauthReq c).uri.map Url.rawQuery) = some "ttl=600"
  ∧ renewalPeriodSeconds = 300
  ∧ renewalLoopStep c .closerFired net tok = .exited
  ∧ (∀ e, ((c.reauthReq).Do .dvalue net).err = some e →
      renewalLoopStep c .tick net tok = .fatal e)
  ∧ (((c.reauthReq).Do .dvalue net).err = none →
      renewalLoopStep c .tick net tok = .swapped { c with token := some tok }) := by
  refine ⟨?_, ?_, rfl, rfl, ?_, ?_⟩
  · simp [initialAuthReq, R.Headers, pairsOf, R.UrlFor, Client.UrlFor, Client.Req]
  · simp only [Client.reauthReq, R.Params, R.UrlFor, Client.UrlFor, Client.Req]
    norm_num
    decide
  · intro e he
    simp [renewalLoopStep, he]
  · intro he
    simp [renewalLoopStep, he]

/-- C6 witness: on a transport failure the tick is fatal with the
accumulated error; on a successful JSON response the tick swaps the
token wholesale. -/
theorem c6_renewal_witness :
    renewalLoopStep c6Client .tick netStub "t2" =
      .fatal { etype := "CLIENT_ERROR",
               messages := ["dial tcp 127.0.0.1:8092: connection refused"] }
  ∧ renewalLoopStep c6Client .tick (.response respJson200) "t2" =
      .swapped { c6Client with token := some "t2" } :=
  ⟨(c6_renewal c6Client netStub "t2").2.2.2.2.1 _ (by decide),
   (c6_renewal c6Client (.response respJson200) "t2").2.2.2.2.2 (by decide)⟩

/-! ## C7 -/

/-- C7 counterexample: with a raw byte sink destination the outgoing
request does not ask for an octet stream instead of JSON — Do adds the
octet-stream Accept value in addition to the JSON one, so the Accept
header carries both values. -/
theorem c7_counterexample :
    ((((cOpen.Req).UrlFor ["machines", "m1"]).Do .dwriter (.response respJson200)).reqHeader.valuesOf
        "Accept") = ["application/json", "application/octet-stream"]
  ∧ ¬ ((((cOpen.Req).UrlFor ["machines", "m1"]).Do .dwriter (.response respJson200)).reqHeader.valuesOf
        "Accept" = ["application/octet-stream"]) := by
  refine ⟨by decide, by decide⟩

/-- C7 (amended): on every executed request Do adds the Accept value
application/json; when the destination is a raw byte sink it adds
application/octet-stream as a further Accept value, so the outgoing
request carries both (after any Accept values the caller set
explicitly). -/
theorem c7_accept_header (r : R) (u : Url) (val : Dest) (net : Transport)
    (hu : r.uri = some u) (hc : r.c.closed = false) (he : r.err.containsError = false) :
    (r.Do val net).reqHeader.valuesOf "Accept" =
      r.header.valuesOf "Accept" ++ ["application/json"] ++
        (if val = .dwriter then ["application/octet-stream"] else []) := by
  rw [do_open r u val net hu hc he, (doNet_invariants r val net).2.2]
  rw [R.outHeader]
  by_cases ha : ((r.withDoHeaders val).header.get "Authorization") == ""
  · simp only [ha, if_pos]
    rw [valuesOf_set_ne _ _ _ _ (by decide), withDoHeaders_header]
    cases val <;> by_cases ht : r.traceLvl == "" <;>
      simp [ht, valuesOf_append, Header.valuesOf]
  · simp only [ha, Bool.false_eq_true, if_false]
    rw [withDoHeaders_header]
    cases val <;> by_cases ht : r.traceLvl == "" <;>
      simp [ht, valuesOf_append, Header.valuesOf]

/-- C7 witness: a fresh builder with a URL and no preset Accept values:
a structured destination yields Accept application/json only, a raw
byte sink yields both values. -/
theorem c7_accept_header_witness :
    (((cOpen.Req).UrlFor ["machines", "m1"]).Do .dvalue (.response respJson200)).reqHeader.valuesOf
        "Accept" =
      ((cOpen.Req).UrlFor ["machines", "m1"]).header.valuesOf "Accept" ++ ["application/json"] ++
        (if (Dest.dvalue = Dest.dwriter) then ["application/octet-stream"] else []) :=
  c7_accept_header ((cOpen.Req).UrlFor ["machines", "m1"]) _ .dvalue (.response respJson200)
    rfl rfl rfl

/-! ## C8 -/

/-- C8: ExistsModel maps a not-found HEAD response to (false, nil),
any success status (at most 300) to (true, nil), and propagates every
other status as an error carrying that status code. -/
theorem c8_exists_model (c : Client) (pfx ky : String) (resp : HttpResponse)
    (hc : c.closed = false) :
    (resp.statusCode = 404 → c.ExistsModel pfx ky (.response resp) = (false, none))
  ∧ (resp.statusCode ≤ 300 → c.ExistsModel pfx ky (.response resp) = (true, none))
  ∧ (300 < resp.statusCode → resp.statusCode ≠ 404 →
      c.ExistsModel pfx ky (.response resp) =
        (false, some { etype := "CLIENT_ERROR", code := resp.statusCode,
                       messages := [statusText resp.statusCode] })) := by
  have herr : ((((c.Req).Head).UrlFor [pfx, ky]).Do .dnil (.response resp)).err =
      (if resp.statusCode ≤ 300 then none
       else some { etype := "CLIENT_ERROR", code := resp.statusCode,
                   messages := [statusText resp.statusCode] }) := by
    rw [do_open (((c.Req).Head).UrlFor [pfx, ky]) (c.UrlFor [pfx, ky]) .dnil
      (.response resp) rfl hc rfl]
    by_cases hs : resp.statusCode ≤ 300 <;>
      simp [R.doNet, hs, MError.errorf, Client.Req, R.Head, R.Meth, R.UrlFor]
  refine ⟨?_, ?_, ?_⟩
  · intro h4
    simp [Client.ExistsModel, herr, h4]
  · intro hle
    simp [Client.ExistsModel, herr, hle]
  · intro hgt hne
    have hnle : ¬ resp.statusCode ≤ 300 := by omega
    simp [Client.ExistsModel, herr, hnle, beq_eq_false_iff_ne.mpr hne]

/-- C8 witness: statuses 404, 200 and 500 at concrete inputs. -/
theorem c8_exists_model_witness :
    Client.ExistsModel cOpen "machines" "m1" (.response { statusCode := 404 }) = (false, none)
  ∧ Client.ExistsModel cOpen "machines" "m1" (.response { statusCode := 200 }) = (true, none)
  ∧ Client.ExistsModel cOpen "machines" "m1" (.response { statusCode := 500 }) =
      (false, some { etype := "CLIENT_ERROR", code := 500, messages := [statusText 500] }) :=
  ⟨(c8_exists_model cOpen "machines" "m1" { statusCode := 404 } rfl).1 rfl,
   (c8_exists_model cOpen "machines" "m1" { statusCode := 200 } rfl).2.1 (by decide),
   (c8_exists_model cOpen "machines" "m1" { statusCode := 500 } rfl).2.2 (by decide) (by decide)⟩

/-! ## C9 -/

/-- C9: Params replaces the whole query string of the resolved URL with
exactly its own key/value pairs — parameters set by an earlier Params
or Filter call are discarded, not appended to — and a successful Filter
call ends in Params the same way, its query depending only on the
compiled parameters. -/
theorem c9_params_replace (r : R) (u : Url) (args : List String)
    (hu : r.uri = some u) (heven : args.length % 2 = 0) :
    (r.Params args).uri =
      some { base := u.base, rawQuery := valuesEncode (valuesOfPairs args []) }
  ∧ (r.Params args).err = r.err
  ∧ (∀ pfx fargs ps, filterLoop fargs = .ok ps →
      (r.Filter pfx fargs).uri =
        some { base := r.c.endpoint ++ "/api/v3/" ++ pfx,
               rawQuery := valuesEncode (valuesOfPairs ps []) }) := by
  refine ⟨?_, ?_, ?_⟩
  · simp [R.Params, hu, heven]
  · simp [R.Params, hu, heven]
  · intro pfx fargs ps h
    have hev := filterLoop_ok_even fargs ps h
    simp [R.Filter, h, R.Params, R.Get, R.Meth, R.UrlFor, Client.UrlFor, hev,
      intercalate_single]

/-- C9 witness: a builder whose query was already a=1 and a second
Params call with b 2: the query becomes exactly the encoding of b=2. -/
theorem c9_params_replace_witness :
    ((((cOpen.Req).UrlFor ["machines"]).Params ["a", "1"]).Params ["b", "2"]).uri =
      some { base := "https://e/api/v3/machines",
             rawQuery := valuesEncode (valuesOfPairs ["b", "2"] []) }
  ∧ ((((cOpen.Req).UrlFor ["machines"]).Params ["a", "1"]).Filter "machines"
        ["limit", "5"]).uri =
      some { base := "https://e/api/v3/machines",
             rawQuery := valuesEncode (valuesOfPairs ["limit", "5"] []) } :=
  have h := c9_params_replace (((cOpen.Req).UrlFor ["machines"]).Params ["a", "1"])
    { base := "https://e/api/v3/machines", rawQuery := "a=1" } ["b", "2"] (by decide) rfl
  ⟨h.1, h.2.2 "machines" ["limit", "5"] ["limit", "5"] rfl⟩

/-! ## C10 -/

/-- C10: for a non-HEAD request whose destination is not a raw byte
sink, a JSON response with any status below 400 — the 300 to 399 range
included — takes the success path: the server-error decoding path is
not taken, the body is decoded into the destination exactly when one
was supplied and the body is non-empty, and the returned error does not
depend on the status code (nil unless the decode itself fails). -/
theorem c10_sub400_success (r : R) (u : Url) (val : Dest) (resp : HttpResponse)
    (hu : r.uri = some u) (hc : r.c.closed = false) (he : r.err.containsError = false)
    (hm : ¬ r.method = "HEAD") (hw : ¬ val = .dwriter)
    (hct : parseMediaType resp.contentType = "application/json")
    (hs : resp.statusCode < 400) :
    (r.Do val (.response resp)).sent = true
  ∧ (r.Do val (.response resp)).decoded = (!(val == .dnil) && !(resp.contentLength == 0))
  ∧ (resp.valBodyDecode = none → (r.Do val (.response resp)).err = none)
  ∧ (∀ m, resp.valBodyDecode = some m → val ≠ .dnil → resp.contentLength ≠ 0 →
      (r.Do val (.response resp)).err = some (r.err.addError m)) := by
  have hsent := (doNet_invariants r val (.response resp)).1
  have hwb : (val == Dest.dwriter) = false := beq_eq_false_iff_ne.mpr hw
  have hmb : (r.method == "HEAD") = false := beq_eq_false_iff_ne.mpr hm
  have hnge : ¬ 400 ≤ resp.statusCode := by omega
  rw [do_open r u val (.response resp) hu hc he]
  refine ⟨hsent, ?_, ?_, ?_⟩
  · simp [R.doNet, hwb, hmb, hct, hnge]
  · intro hdec
    simp [R.doNet, hwb, hmb, hct, hnge, hdec, MError.hasError, he]
  · intro m hdec hvn hcl
    have hvb : (val == Dest.dnil) = false := beq_eq_false_iff_ne.mpr hvn
    have hclb : (resp.contentLength == 0) = false := beq_eq_false_iff_ne.mpr hcl
    simp [R.doNet, hwb, hmb, hct, hnge, hdec, hvb, hclb, MError.hasError,
      MError.containsError, MError.addError]

/-- C10 witness: a 302 JSON response with a non-empty body and a
structured destination decodes into it with a nil error. -/
theorem c10_sub400_success_witness :
    ((((cOpen.Req).UrlFor ["machines", "m1"]).Do .dvalue
        (.response { statusCode := 302, contentType := "application/json",
                     contentLength := 5 })).sent = true)
  ∧ ((((cOpen.Req).UrlFor ["machines", "m1"]).Do .dvalue
        (.response { statusCode := 302, contentType := "application/json",
                     contentLength := 5 })).decoded =
      (!(Dest.dvalue == Dest.dnil) && !((5 : Int) == 0)))
  ∧ ((((cOpen.Req).UrlFor ["machines", "m1"]).Do .dvalue
        (.response { statusCode := 302, contentType := "application/json",
                     contentLength := 5 })).err = none) :=
  have h := c10_sub400_success ((cOpen.Req).UrlFor ["machines", "m1"])
    (cOpen.UrlFor ["machines", "m1"]) .dvalue
    { statusCode := 302, contentType := "application/json", contentLength := 5 }
    rfl rfl rfl (by decide) (by decide) (by decide) (by decide)
  ⟨h.1, h.2.1, h.2.2.1 rfl⟩

end Provision
